import Mathlib

set_option maxRecDepth 40000

/-!
Verification development for the vocalytics-insight call-analysis pipeline.

The pipeline under study is the Deno edge function
`supabase/functions/transcribe-audio/index.ts` together with the
role-inference helper `identifyRoles` of
`src/components/TranscriptionResults.tsx`.  Dynamic JavaScript values
produced by `JSON.parse` are embedded as the inductive type `JsVal`;
the property-access, optional-chaining, `||` and spread semantics used
by the source are modelled explicitly, and `JSON.parse` itself is a
fuel-driven recursive-descent parser over the character list of the
input string.
-/

/-- A JavaScript runtime value as producible by `JSON.parse`, plus
`undef` for the `undefined` value produced by missing-property access. -/
inductive JsVal : Type where
  | undef : JsVal
  | null : JsVal
  | bool : Bool → JsVal
  | num : ℚ → JsVal
  | str : String → JsVal
  | arr : List JsVal → JsVal
  | obj : List (String × JsVal) → JsVal

/-- First binding of key `k` in an object's field list. -/
def jsLookup (fs : List (String × JsVal)) (k : String) : Option JsVal :=
  match fs with
  | [] => none
  | (k', v) :: rest => if k' = k then some v else jsLookup rest k

/-- JavaScript property access `v.k`: throws (TypeError) on `undefined`
and `null`, yields `undefined` for an absent property, and yields
`undefined` on primitives and arrays (no such named property is used by
the source). -/
def jsGetMember (v : JsVal) (k : String) : Except Unit JsVal :=
  match v with
  | JsVal.undef => Except.error ()
  | JsVal.null => Except.error ()
  | JsVal.obj fs => Except.ok ((jsLookup fs k).getD JsVal.undef)
  | _ => Except.ok JsVal.undef

/-- JavaScript optional chaining `v?.k`: `undefined` when the base is
nullish, ordinary (non-throwing) access otherwise. -/
def jsOptMember (v : JsVal) (k : String) : JsVal :=
  match v with
  | JsVal.undef => JsVal.undef
  | JsVal.null => JsVal.undef
  | JsVal.obj fs => (jsLookup fs k).getD JsVal.undef
  | _ => JsVal.undef

/-- JavaScript truthiness of a runtime value. -/
def jsTruthy (v : JsVal) : Bool :=
  match v with
  | JsVal.undef => false
  | JsVal.null => false
  | JsVal.bool b => b
  | JsVal.num q => decide (q ≠ 0)
  | JsVal.str s => decide (s ≠ "")
  | JsVal.arr _ => true
  | JsVal.obj _ => true

/-- JavaScript `a || b`. -/
def jsOr (a b : JsVal) : JsVal := if jsTruthy a then a else b

/-- JavaScript array-literal spread `[...v]` of one value: arrays
spread to their elements, strings to their one-character strings, and
any other value raises a TypeError (not iterable). -/
def jsSpread (v : JsVal) : Except Unit (List JsVal) :=
  match v with
  | JsVal.arr xs => Except.ok xs
  | JsVal.str s => Except.ok (s.data.map (fun c => JsVal.str (String.mk [c])))
  | _ => Except.error ()

/-- The whitespace class used by JSON and by the `\s`/`trim` steps of
the source on the character data relevant here. -/
def isJsWs (c : Char) : Bool := c = ' ' || c = '\t' || c = '\n' || c = '\r'

/-- Drop leading whitespace. -/
def wsDrop (l : List Char) : List Char := l.dropWhile isJsWs

/-- Drop trailing whitespace. -/
def wsDropEnd (l : List Char) : List Char :=
  match l with
  | [] => []
  | c :: rest =>
    match wsDropEnd rest with
    | [] => if isJsWs c then [] else [c]
    | r => c :: r

/-- The `String.trim` step used at the parse site, over character data. -/
def jsTrimL (l : List Char) : List Char := wsDropEnd (wsDrop l)

/-- The `String.trim` step used at the parse site. -/
def jsTrim (s : String) : String := String.mk (jsTrimL s.data)

/-- Numeric value of a decimal digit character. -/
def digitVal (c : Char) : Nat := c.toNat - 48

/-- Numeric value of a hexadecimal digit character, if any. -/
def hexVal (c : Char) : Option Nat :=
  if c.isDigit then some (c.toNat - 48)
  else if 97 ≤ c.toNat && c.toNat ≤ 102 then some (c.toNat - 87)
  else if 65 ≤ c.toNat && c.toNat ≤ 70 then some (c.toNat - 55)
  else none

/-- Value of a digit string read most-significant first. -/
def digitsToNat (ds : List Char) : Nat :=
  List.foldl (fun a c => a * 10 + digitVal c) 0 ds

/-- Parse the fractional part of a JSON number, if present: the digit
string's value, the number of fractional digits, and the rest. -/
def parseFrac (cs : List Char) : Option (Nat × Nat × List Char) :=
  match cs with
  | '.' :: r =>
    let ds := r.takeWhile Char.isDigit
    if ds.isEmpty then none
    else some (digitsToNat ds, ds.length, r.dropWhile Char.isDigit)
  | _ => some (0, 0, cs)

/-- Parse the exponent part of a JSON number, if present. -/
def parseExpPart (cs : List Char) : Option (Int × List Char) :=
  match cs with
  | c :: r =>
    if c = 'e' || c = 'E' then
      let sr : Int × List Char :=
        match r with
        | '+' :: r2 => (1, r2)
        | '-' :: r2 => (-1, r2)
        | _ => (1, r)
      let ds := sr.2.takeWhile Char.isDigit
      if ds.isEmpty then none
      else some (sr.1 * Int.ofNat (digitsToNat ds), sr.2.dropWhile Char.isDigit)
    else some (0, c :: r)
  | [] => some (0, [])

/-- Assemble the exact rational value of a parsed JSON number from its
sign, integer part, fractional digits and decimal exponent. -/
def assembleNumber (neg : Bool) (ip fv k : Nat) (e : Int) : ℚ :=
  let mant : Nat := ip * 10 ^ k + fv
  let num : Nat := if 0 ≤ e then mant * 10 ^ e.toNat else mant
  let den : Nat := if 0 ≤ e then 10 ^ k else 10 ^ k * 10 ^ (-e).toNat
  if neg then Rat.divInt (-(Int.ofNat num)) (Int.ofNat den)
  else Rat.divInt (Int.ofNat num) (Int.ofNat den)

/-- Parse a JSON number (sign, integer part, fraction, exponent) to an
exact rational. -/
def parseNumber (cs : List Char) : Option (ℚ × List Char) :=
  let sc : Bool × List Char :=
    match cs with
    | '-' :: r => (true, r)
    | _ => (false, cs)
  match sc.2 with
  | [] => none
  | c :: r =>
    if !c.isDigit then none
    else
      let ir : Nat × List Char :=
        if c = '0' then (0, r)
        else (digitsToNat ((c :: r).takeWhile Char.isDigit), (c :: r).dropWhile Char.isDigit)
      match parseFrac ir.2 with
      | none => none
      | some (fv, k, rest2) =>
        match parseExpPart rest2 with
        | none => none
        | some (e, rest3) =>
          some (assembleNumber sc.1 ir.1 fv k e, rest3)

/-- Translate a one-character JSON string escape. -/
def escChar (c : Char) : Option Char :=
  if c = '"' then some '"'
  else if c = '\\' then some '\\'
  else if c = '/' then some '/'
  else if c = 'b' then some (Char.ofNat 8)
  else if c = 'f' then some (Char.ofNat 12)
  else if c = 'n' then some '\n'
  else if c = 'r' then some '\r'
  else if c = 't' then some '\t'
  else none

/-- Parse the body of a JSON string literal (opening quote already
consumed), returning the decoded characters and the rest of the input. -/
def parseStrChars (fuel : Nat) (cs : List Char) : Option (List Char × List Char) :=
  match fuel with
  | 0 => none
  | fuel + 1 =>
    match cs with
    | [] => none
    | c :: rest =>
      if c = '"' then some ([], rest)
      else if c = '\\' then
        match rest with
        | [] => none
        | e :: r2 =>
          if e = 'u' then
            match r2 with
            | a :: b :: c2 :: d :: r3 =>
              match hexVal a, hexVal b, hexVal c2, hexVal d with
              | some ha, some hb, some hc, some hd =>
                match parseStrChars fuel r3 with
                | some (tailChars, rem) =>
                  some (Char.ofNat (((ha * 16 + hb) * 16 + hc) * 16 + hd) :: tailChars, rem)
                | none => none
              | _, _, _, _ => none
            | _ => none
          else
            match escChar e with
            | none => none
            | some ec =>
              match parseStrChars fuel r2 with
              | some (tailChars, rem) => some (ec :: tailChars, rem)
              | none => none
      else if c.toNat < 32 then none
      else
        match parseStrChars fuel rest with
        | some (tailChars, rem) => some (c :: tailChars, rem)
        | none => none

mutual

/-- Recursive-descent parser for one JSON value, mirroring the grammar
accepted by `JSON.parse`. -/
def parseVal (fuel : Nat) (cs : List Char) : Option (JsVal × List Char) :=
  match fuel with
  | 0 => none
  | fuel + 1 =>
    match cs with
    | [] => none
    | c :: rest =>
      if c = '"' then
        match parseStrChars (rest.length + 1) rest with
        | some (chars, rem) => some (JsVal.str (String.mk chars), rem)
        | none => none
      else if c = '{' then
        match parseObjBody fuel (wsDrop rest) with
        | some (fs, rem) => some (JsVal.obj fs, rem)
        | none => none
      else if c = '[' then
        match parseArrBody fuel (wsDrop rest) with
        | some (vs, rem) => some (JsVal.arr vs, rem)
        | none => none
      else if c = 't' then
        match cs with
        | 't' :: 'r' :: 'u' :: 'e' :: r => some (JsVal.bool true, r)
        | _ => none
      else if c = 'f' then
        match cs with
        | 'f' :: 'a' :: 'l' :: 's' :: 'e' :: r => some (JsVal.bool false, r)
        | _ => none
      else if c = 'n' then
        match cs with
        | 'n' :: 'u' :: 'l' :: 'l' :: r => some (JsVal.null, r)
        | _ => none
      else if c = '-' || c.isDigit then
        match parseNumber cs with
        | some (q, r) => some (JsVal.num q, r)
        | none => none
      else none

/-- Parse the elements of a JSON array after the opening bracket. -/
def parseArrBody (fuel : Nat) (cs : List Char) : Option (List JsVal × List Char) :=
  match fuel with
  | 0 => none
  | fuel + 1 =>
    match cs with
    | ']' :: r => some ([], r)
    | _ =>
      match parseVal fuel cs with
      | none => none
      | some (v, r1) =>
        match parseArrTail fuel (wsDrop r1) with
        | some (vs, r2) => some (v :: vs, r2)
        | none => none

/-- Parse an array continuation: a comma-separated tail or the closing
bracket. -/
def parseArrTail (fuel : Nat) (cs : List Char) : Option (List JsVal × List Char) :=
  match fuel with
  | 0 => none
  | fuel + 1 =>
    match cs with
    | ']' :: r => some ([], r)
    | ',' :: r =>
      match parseVal fuel (wsDrop r) with
      | none => none
      | some (v, r1) =>
        match parseArrTail fuel (wsDrop r1) with
        | some (vs, r2) => some (v :: vs, r2)
        | none => none
    | _ => none

/-- Parse one `"key": value` member of a JSON object. -/
def parseMember (fuel : Nat) (cs : List Char) : Option ((String × JsVal) × List Char) :=
  match fuel with
  | 0 => none
  | fuel + 1 =>
    match cs with
    | '"' :: r =>
      match parseStrChars (r.length + 1) r with
      | none => none
      | some (ks, r1) =>
        match wsDrop r1 with
        | ':' :: r2 =>
          match parseVal fuel (wsDrop r2) with
          | some (v, r3) => some ((String.mk ks, v), r3)
          | none => none
        | _ => none
    | _ => none

/-- Parse the members of a JSON object after the opening brace. -/
def parseObjBody (fuel : Nat) (cs : List Char) :
    Option (List (String × JsVal) × List Char) :=
  match fuel with
  | 0 => none
  | fuel + 1 =>
    match cs with
    | '}' :: r => some ([], r)
    | _ =>
      match parseMember fuel cs with
      | none => none
      | some (kv, r1) =>
        match parseObjTail fuel (wsDrop r1) with
        | some (kvs, r2) => some (kv :: kvs, r2)
        | none => none

/-- Parse an object continuation: a comma-separated tail or the closing
brace. -/
def parseObjTail (fuel : Nat) (cs : List Char) :
    Option (List (String × JsVal) × List Char) :=
  match fuel with
  | 0 => none
  | fuel + 1 =>
    match cs with
    | '}' :: r => some ([], r)
    | ',' :: r =>
      match parseMember fuel (wsDrop r) with
      | none => none
      | some (kv, r1) =>
        match parseObjTail fuel (wsDrop r1) with
        | some (kvs, r2) => some (kv :: kvs, r2)
        | none => none
    | _ => none

end

/-- The `JSON.parse` entry point on character data: one value surrounded only by
whitespace, or failure. -/
def jsonParse (cs : List Char) : Option JsVal :=
  match parseVal (4 * cs.length + 16) (wsDrop cs) with
  | some (v, rest) => if wsDrop rest = [] then some v else none
  | none => none

/-- The `JSON.parse` entry point on a string. -/
def jsonParseStr (s : String) : Option JsVal := jsonParse s.data

/-- Index of the first occurrence of `pat` in `l`, if any (the position
where a JavaScript non-global regex whose literal part is `pat` first
matches). -/
def patIndex (pat l : List Char) : Option Nat :=
  match l with
  | [] => if pat.isPrefixOf ([] : List Char) then some 0 else none
  | c :: t =>
    if pat.isPrefixOf (c :: t) then some 0
    else (patIndex pat t).map (fun n => n + 1)

/-- JavaScript `String.prototype.includes`. -/
def containsPat (l pat : List Char) : Bool := (patIndex pat l).isSome

/-- JavaScript `replace(new RegExp(pat + whitespace-run), "")` with a
non-global regex: delete the first occurrence of `pat` together with
the whitespace run that follows it. -/
def stripFirstPat (l pat : List Char) : List Char :=
  match patIndex pat l with
  | none => l
  | some i => l.take i ++ wsDrop (l.drop (i + pat.length))

/-- JavaScript `replace(end-anchored whitespace-then-fence, "")`:
if the text ends with three backticks, delete them and the whitespace
run immediately before them. -/
def stripTrailingFence (l : List Char) : List Char :=
  if ("```".data).isSuffixOf l then wsDropEnd (l.take (l.length - 3)) else l

/-- The markdown-fence sanitization of the analysis content performed
before `JSON.parse` (index.ts lines 210-214). -/
def sanitizeContentL (l : List Char) : List Char :=
  if containsPat l ("```json".data) then
    stripTrailingFence (stripFirstPat l ("```json".data))
  else if containsPat l ("```".data) then
    stripTrailingFence (stripFirstPat l ("```".data))
  else l

/-- String-level sanitizer. -/
def sanitizeContent (s : String) : String := String.mk (sanitizeContentL s.data)

/-- The legacy backward-compatibility extraction performed after a
successful `JSON.parse` (index.ts lines 219-225): flatten the four
anomaly lists with optional chaining and `|| []` defaults, and read
`analysis.suggestions || []`.  A thrown TypeError is `Except.error`. -/
def legacyExtract (analysis : JsVal) : Except Unit (List JsVal × JsVal) := do
  let an1 ← jsGetMember analysis "anomalies"
  let caller1 ← jsGetMember an1 "caller"
  let l1 ← jsSpread (jsOr (jsOptMember caller1 "positive") (JsVal.arr []))
  let l2 ← jsSpread (jsOr (jsOptMember caller1 "negative") (JsVal.arr []))
  let an2 ← jsGetMember analysis "anomalies"
  let recv1 ← jsGetMember an2 "receiver"
  let l3 ← jsSpread (jsOr (jsOptMember recv1 "positive") (JsVal.arr []))
  let l4 ← jsSpread (jsOr (jsOptMember recv1 "negative") (JsVal.arr []))
  let s1 ← jsGetMember analysis "suggestions"
  Except.ok (l1 ++ l2 ++ l3 ++ l4, jsOr s1 (JsVal.arr []))

/-- The deterministic fallback `CallAnalysis` synthesized when the
model response cannot be parsed (index.ts lines 231-252). -/
def fallbackAnalysis (transcript : String) : JsVal :=
  JsVal.obj [
    ("objective", JsVal.str "Unable to determine call objective"),
    ("transcript", JsVal.arr [JsVal.obj [
      ("speaker", JsVal.str "System"),
      ("text", JsVal.str (String.mk (transcript.data.take 500) ++ "...")),
      ("timestamp", JsVal.str "00:00")]]),
    ("anomalies", JsVal.obj [
      ("caller", JsVal.obj [
        ("positive", JsVal.arr []),
        ("negative", JsVal.arr [JsVal.str "Analysis error - manual review required"])]),
      ("receiver", JsVal.obj [
        ("positive", JsVal.arr []),
        ("negative", JsVal.arr [JsVal.str "Analysis error - manual review required"])])]),
    ("conclusion", JsVal.str "Call analysis could not be completed due to processing error"),
    ("suggestions", JsVal.arr [JsVal.str "Manual review of call recording recommended"]),
    ("score", JsVal.num (Rat.divInt 5 1)),
    ("scoreReasoning", JsVal.str "Score not available due to analysis error")]

/-- The analysis, legacy anomalies and suggestions carried by a success
response. -/
structure PipeOut : Type where
  anomalies : List JsVal
  suggestions : JsVal
  analysis : JsVal

/-- Outcome of the catch branch of the parse block (index.ts lines
227-256): the fallback analysis plus the fixed legacy markers. -/
def fallbackOut (transcript : String) : PipeOut :=
  PipeOut.mk [JsVal.str "Analysis processing error"]
    (JsVal.arr [JsVal.str "Manual review recommended"])
    (fallbackAnalysis transcript)

/-- The sanitize / parse / extract-or-fallback block of the handler
(index.ts lines 199-256), for a given raw model content and raw
transcript. -/
def processContent (content transcript : String) : PipeOut :=
  match jsonParseStr (jsTrim (sanitizeContent content)) with
  | none => fallbackOut transcript
  | some analysis =>
    match legacyExtract analysis with
    | Except.error _ => fallbackOut transcript
    | Except.ok (ans, sugg) => PipeOut.mk ans sugg analysis

/-- The `Math.round` step on an exact rational (round half toward positive
infinity). -/
def jsRound (q : ℚ) : Int := Rat.floor (Rat.add q (Rat.divInt 1 2))

/-- Body of a 200 success response (interface TranscriptionResponse). -/
structure SuccessBody : Type where
  transcript : String
  anomalies : List JsVal
  suggestions : JsVal
  duration : Int
  analysis : JsVal

/-- Body of a 500 failure response (index.ts lines 277-305). -/
structure FailureBody : Type where
  error : String
  transcript : String
  anomalies : List JsVal
  suggestions : List JsVal
  duration : Int
  analysis : JsVal

/-- The fixed empty-shaped `CallAnalysis` embedded in every 500
response (index.ts lines 285-296). -/
def errorAnalysis : JsVal :=
  JsVal.obj [
    ("objective", JsVal.str "Error during analysis"),
    ("transcript", JsVal.arr []),
    ("anomalies", JsVal.obj [
      ("caller", JsVal.obj [("positive", JsVal.arr []), ("negative", JsVal.arr [])]),
      ("receiver", JsVal.obj [("positive", JsVal.arr []), ("negative", JsVal.arr [])])]),
    ("conclusion", JsVal.str "Call analysis failed"),
    ("suggestions", JsVal.arr []),
    ("score", JsVal.num (Rat.divInt 0 1)),
    ("scoreReasoning", JsVal.str "Analysis could not be completed due to error")]

/-- The 500 body produced by the outer catch for a given error
message. -/
def mkFailure (msg : String) : FailureBody :=
  FailureBody.mk msg "Error during transcription" [] [] 0 errorAnalysis

/-- A handler response: HTTP 200 with a success body, or HTTP 500 with
a failure body. -/
inductive ServeResult : Type where
  | ok : SuccessBody → ServeResult
  | fail : FailureBody → ServeResult

/-- The handler's interaction environment: the decoded request fields,
the configured credential, and the two upstream exchanges.  Request
body decoding, base64 decoding and the network transport are abstracted
away; the upstream services are summarized by their HTTP success flag,
status and payload. -/
structure Env : Type where
  audio : Option String
  fileName : String
  fileType : String
  apiKey : Option String
  whisperOk : Bool
  whisperStatus : Nat
  whisperErrorText : String
  whisperText : String
  whisperDuration : ℚ
  analysisOk : Bool
  analysisStatus : Nat
  analysisContent : String

/-- JavaScript falsiness of an optional string (absent, or the empty
string). -/
def jsFalsyOptStr (v : Option String) : Bool :=
  match v with
  | none => true
  | some s => decide (s = "")

/-- The decode-abstracted core of the request handler of
`supabase/functions/transcribe-audio/index.ts` (non-OPTIONS path): the
handler under the assumption that the request-body JSON decode, the
base64 decode of the audio and the transport of the two fetches
succeed.  In the source each of those steps can throw and reach the
outer catch as a 500; the base64 decode step is restored by
`serveWithDecode` below, the others remain abstracted. -/
def serve (e : Env) : ServeResult :=
  if jsFalsyOptStr e.audio then
    ServeResult.fail (mkFailure "No audio data provided")
  else if jsFalsyOptStr e.apiKey then
    ServeResult.fail (mkFailure "OpenAI API key not configured")
  else if e.whisperOk = false then
    ServeResult.fail (mkFailure ("Whisper API error: " ++ toString e.whisperStatus
      ++ " - " ++ e.whisperErrorText))
  else if e.analysisOk = false then
    ServeResult.fail (mkFailure ("Analysis API error: " ++ toString e.analysisStatus))
  else
    ServeResult.ok (SuccessBody.mk e.whisperText
      (processContent e.analysisContent e.whisperText).anomalies
      (processContent e.analysisContent e.whisperText).suggestions
      (jsRound e.whisperDuration)
      (processContent e.analysisContent e.whisperText).analysis)

/-- ASCII whitespace as stripped by forgiving-base64 decoding. -/
def isB64Ws (c : Char) : Bool :=
  c = ' ' || c = '\t' || c = '\n' || c = Char.ofNat 12 || c = '\r'

/-- Membership in the base64 alphabet. -/
def isB64Char (c : Char) : Bool :=
  (65 ≤ c.toNat && c.toNat ≤ 90) || (97 ≤ c.toNat && c.toNat ≤ 122)
    || (48 ≤ c.toNat && c.toNat ≤ 57) || c = '+' || c = '/'

/-- Whether `atob` accepts a string: the forgiving-base64 acceptance
check (WHATWG infra) implemented by the `atob` the handler calls.
Strip ASCII whitespace; when the length is a multiple of four drop up
to two trailing "=" signs; then reject if the length is 1 mod 4 or any
remaining character is outside the base64 alphabet. -/
def atobOk (s : String) : Bool :=
  let t := s.data.filter (fun c => !isB64Ws c)
  let t2 :=
    if t.length % 4 = 0 then
      if t.getLast? = some '=' then
        if t.dropLast.getLast? = some '=' then t.dropLast.dropLast else t.dropLast
      else t
    else t
  decide (t2.length % 4 ≠ 1) && t2.all isB64Char

/-- The request handler including the base64 decode step (index.ts
line 70): `Uint8Array.from(atob(audio), ...)` throws an
InvalidCharacterError on audio that forgiving-base64 rejects, and the
outer catch (line 275) turns that exception into the same fixed 500
body.  After this step the handler is `serve`.  The request-body JSON
decode, the network transport of the two fetches and the decode of the
transcription payload can likewise throw in the source and reach the
same catch; those remain abstracted. -/
def serveWithDecode (e : Env) : ServeResult :=
  if jsFalsyOptStr e.audio then
    ServeResult.fail (mkFailure "No audio data provided")
  else if jsFalsyOptStr e.apiKey then
    ServeResult.fail (mkFailure "OpenAI API key not configured")
  else if atobOk (e.audio.getD "") = false then
    ServeResult.fail (mkFailure "InvalidCharacterError: failed to decode base64")
  else serve e

/-- The "score" member of an analysis value, when it is a number. -/
def scoreOf (v : JsVal) : Option ℚ :=
  match v with
  | JsVal.obj fs =>
    match jsLookup fs "score" with
    | some (JsVal.num q) => some q
    | _ => none
  | _ => none

/-- A named member of an analysis value, when it is a string. -/
def strFieldOf (v : JsVal) (k : String) : Option String :=
  match v with
  | JsVal.obj fs =>
    match jsLookup fs k with
    | some (JsVal.str s) => some s
    | _ => none
  | _ => none

/-- A named member of an analysis value, when it is an array. -/
def arrFieldOf (v : JsVal) (k : String) : Option (List JsVal) :=
  match v with
  | JsVal.obj fs =>
    match jsLookup fs k with
    | some (JsVal.arr xs) => some xs
    | _ => none
  | _ => none

/-- One polarity list of one party bucket of the structured anomalies,
when present as an array. -/
def anomalyListOf (v : JsVal) (party pol : String) : Option (List JsVal) :=
  match arrFieldOf (JsVal.obj []) "" with
  | _ =>
    match v with
    | JsVal.obj fs =>
      match jsLookup fs "anomalies" with
      | some (JsVal.obj an) =>
        match jsLookup an party with
        | some bucket => arrFieldOf bucket pol
        | none => none
      | _ => none
    | _ => none

/-- The speaker of one transcript segment, when it is a string. -/
def segSpeaker (v : JsVal) : Option String := strFieldOf v "speaker"

/-- The speakers of an analysis value's transcript segments, when the
transcript is an array of segments with string speakers. -/
def segmentSpeakerStrs (v : JsVal) : Option (List String) :=
  match arrFieldOf v "transcript" with
  | some segs => segs.mapM segSpeaker
  | none => none

/-- The texts of an analysis value's transcript segments. -/
def segmentTextStrs (v : JsVal) : Option (List String) :=
  match arrFieldOf v "transcript" with
  | some segs => segs.mapM (fun s => strFieldOf s "text")
  | none => none

/-- The timestamps of an analysis value's transcript segments. -/
def segmentTimestampStrs (v : JsVal) : Option (List String) :=
  match arrFieldOf v "transcript" with
  | some segs => segs.mapM (fun s => strFieldOf s "timestamp")
  | none => none

/-- Shape test: a string value. -/
def isStrVal (v : JsVal) : Bool :=
  match v with
  | JsVal.str _ => true
  | _ => false

/-- Shape test: a number value. -/
def isNumVal (v : JsVal) : Bool :=
  match v with
  | JsVal.num _ => true
  | _ => false

/-- Shape test: an array of strings. -/
def isStrArrVal (v : JsVal) : Bool :=
  match v with
  | JsVal.arr xs => xs.all isStrVal
  | _ => false

/-- Shape test: a transcript segment (speaker, text and timestamp all
present as strings). -/
def isSegmentVal (v : JsVal) : Bool :=
  (strFieldOf v "speaker").isSome && (strFieldOf v "text").isSome
    && (strFieldOf v "timestamp").isSome

/-- Shape test: an anomaly bucket (both polarity lists present as
string arrays). -/
def isBucketVal (v : JsVal) : Bool :=
  match v with
  | JsVal.obj fs =>
    (match jsLookup fs "positive" with
     | some p => isStrArrVal p
     | none => false)
    && (match jsLookup fs "negative" with
        | some n => isStrArrVal n
        | none => false)
  | _ => false

/-- Structural completeness of a `CallAnalysis` value: all seven fields
present with the correct JSON shape, with `anomalies` holding both
party buckets and each bucket both polarity lists. -/
def isCompleteCallAnalysis (v : JsVal) : Bool :=
  match v with
  | JsVal.obj fs =>
    (match jsLookup fs "objective" with
     | some x => isStrVal x
     | none => false)
    && (match jsLookup fs "transcript" with
        | some (JsVal.arr segs) => segs.all isSegmentVal
        | _ => false)
    && (match jsLookup fs "anomalies" with
        | some (JsVal.obj an) =>
          (match jsLookup an "caller" with
           | some b => isBucketVal b
           | none => false)
          && (match jsLookup an "receiver" with
              | some b => isBucketVal b
              | none => false)
        | _ => false)
    && (match jsLookup fs "conclusion" with
        | some x => isStrVal x
        | none => false)
    && (match jsLookup fs "suggestions" with
        | some x => isStrArrVal x
        | none => false)
    && (match jsLookup fs "score" with
        | some x => isNumVal x
        | none => false)
    && (match jsLookup fs "scoreReasoning" with
        | some x => isStrVal x
        | none => false)
  | _ => false

/-- Modelled from the spec: the `LegacyProjector` of section 4.6, used
as the comparison point for the flattening claim.  It flattens the
structured anomalies into the fixed order caller-positive,
caller-negative, receiver-positive, receiver-negative, and is undefined
when a bucket or list is absent. -/
def specFlattenAnomalies (v : JsVal) : Option (List JsVal) :=
  match anomalyListOf v "caller" "positive" with
  | none => none
  | some cp =>
    match anomalyListOf v "caller" "negative" with
    | none => none
    | some cn =>
      match anomalyListOf v "receiver" "positive" with
      | none => none
      | some rp =>
        match anomalyListOf v "receiver" "negative" with
        | none => none
        | some rn => some (cp ++ cn ++ rp ++ rn)

/-- An object value carrying the four anomaly lists as arrays under the
standard bucket layout. -/
def mkAnomaliesVal (cp cn rp rn : List JsVal) : JsVal :=
  JsVal.obj [
    ("caller", JsVal.obj [("positive", JsVal.arr cp), ("negative", JsVal.arr cn)]),
    ("receiver", JsVal.obj [("positive", JsVal.arr rp), ("negative", JsVal.arr rn)])]

/-- One utterance of a typed transcript
(src/types/transcription.ts, SpeakerSegment). -/
structure SpeakerSegmentT : Type where
  speaker : String
  text : String
  timestamp : String
deriving DecidableEq

/-- One party's anomaly bucket (src/types/transcription.ts). -/
structure AnomalyBucketT : Type where
  positive : List String
  negative : List String
deriving DecidableEq

/-- The two-party anomaly structure (src/types/transcription.ts). -/
structure AnomaliesT : Type where
  caller : AnomalyBucketT
  receiver : AnomalyBucketT
deriving DecidableEq

/-- The typed `CallAnalysis` consumed by the dashboard components
(src/types/transcription.ts). -/
structure CallAnalysisT : Type where
  objective : String
  transcript : List SpeakerSegmentT
  anomalies : AnomaliesT
  conclusion : String
  suggestions : List String
  score : ℚ
  scoreReasoning : String
deriving DecidableEq

/-- The role assignment produced by the dashboard's role inference. -/
structure RoleMap : Type where
  agentRole : String
  customerRole : String
deriving DecidableEq

/-- ASCII lowercasing, as `toLowerCase` acts on the keyword alphabet. -/
def strLower (s : String) : String := String.mk (s.data.map Char.toLower)

/-- JavaScript `String.prototype.includes` on strings. -/
def strIncludes (s pat : String) : Bool := containsPat s.data pat.data

/-- Whether one positive-findings list exhibits agent-skill keyword
evidence (TranscriptionResults.tsx lines 93-107): some finding whose
lowercase form contains one of the five keywords. -/
def hasAgentSkillEvidence (positives : List String) : Bool :=
  positives.any (fun p =>
    strIncludes (strLower p) "professional"
    || strIncludes (strLower p) "helpful"
    || strIncludes (strLower p) "explained"
    || strIncludes (strLower p) "guided"
    || strIncludes (strLower p) "addressed")

/-- The dashboard's role inference (TranscriptionResults.tsx
`identifyRoles`, lines 88-121), as a function of the transcription's
analysis and suggestions. -/
def identifyRoles (analysis : Option CallAnalysisT) (suggestions : List String) :
    Option RoleMap :=
  match analysis with
  | none => none
  | some a =>
    let receiverHasAgentSkills := hasAgentSkillEvidence a.anomalies.receiver.positive
    let callerHasAgentSkills := hasAgentSkillEvidence a.anomalies.caller.positive
    if decide (suggestions.length > 0) && receiverHasAgentSkills && !callerHasAgentSkills then
      some (RoleMap.mk "Receiver" "Caller")
    else if callerHasAgentSkills && !receiverHasAgentSkills then
      some (RoleMap.mk "Caller" "Receiver")
    else some (RoleMap.mk "Receiver" "Caller")

/-- A healthy interaction environment carrying a given raw model
content: audio present, credential configured, both upstream calls
successful. -/
def envWith (content : String) : Env :=
  Env.mk (some "QUJDRA==") "call.mp3" "audio/mpeg" (some "sk-test-key")
    true 200 "" "hello world transcript" (Rat.divInt 12 1) true 200 content

/-- An environment with no configured credential. -/
def envNoKey : Env :=
  Env.mk (some "QUJDRA==") "call.mp3" "audio/mpeg" none
    true 200 "" "hello world transcript" (Rat.divInt 12 1) true 200 "\x7b\x7d"

/-- An environment whose audio field is present and truthy but is not
decodable base64, with the credential configured and both upstream
calls successful. -/
def envBadAudio : Env :=
  Env.mk (some "!!!") "call.mp3" "audio/mpeg" (some "sk-test-key")
    true 200 "" "hello world transcript" (Rat.divInt 12 1) true 200 "\x7b\x7d"

/-- The typed analysis of spec scenario D: one agent-skill finding for
the caller, none for the receiver, no suggestions. -/
def scenarioD : CallAnalysisT :=
  CallAnalysisT.mk "Support call"
    [SpeakerSegmentT.mk "Caller" "hi" "00:00"]
    (AnomaliesT.mk
      (AnomalyBucketT.mk ["explained the refund process professionally"] [])
      (AnomalyBucketT.mk [] []))
    "resolved" [] (Rat.divInt 7 1) "good call"

/-- Whether a handler response is a 200 success. -/
def isOkResult (r : ServeResult) : Bool :=
  match r with
  | ServeResult.ok _ => true
  | ServeResult.fail _ => false

/-- The analysis record carried by a response (success or failure
body). -/
def resultAnalysis (r : ServeResult) : JsVal :=
  match r with
  | ServeResult.ok b => b.analysis
  | ServeResult.fail b => b.analysis

/-- The legacy flattened anomalies carried by a response. -/
def resultLegacyAnoms (r : ServeResult) : List JsVal :=
  match r with
  | ServeResult.ok b => b.anomalies
  | ServeResult.fail b => b.anomalies

/-- The score of the analysis record carried by a response. -/
def resultScore (r : ServeResult) : Option ℚ := scoreOf (resultAnalysis r)

/-- A model response that parses as JSON but lacks every `CallAnalysis`
field except an empty `anomalies` object. -/
def contentBareAnomalies : String := "\x7b\"anomalies\": \x7b\x7d\x7d"

/-- A model response with well-formed empty buckets and an out-of-range
score of 999. -/
def contentScore999 : String :=
  "\x7b\"anomalies\":\x7b\"caller\":\x7b\"positive\":[],\"negative\":[]\x7d,\"receiver\":\x7b\"positive\":[],\"negative\":[]\x7d\x7d,\"score\":999\x7d"

/-- A model response whose anomalies carry only the caller bucket; the
receiver bucket is entirely absent. -/
def contentMissingReceiver : String :=
  "\x7b\"anomalies\":\x7b\"caller\":\x7b\"positive\":[\"a\"],\"negative\":[\"b\"]\x7d\x7d\x7d"

/-- A complete, valid `CallAnalysis` JSON text whose `objective` string
happens to contain a "```json" marker. -/
def c10Json : String :=
  "\x7b\"objective\":\"```json x\",\"transcript\":[\x7b\"speaker\":\"Caller\",\"text\":\"hi\",\"timestamp\":\"00:00\"\x7d],\"anomalies\":\x7b\"caller\":\x7b\"positive\":[],\"negative\":[]\x7d,\"receiver\":\x7b\"positive\":[],\"negative\":[]\x7d\x7d,\"conclusion\":\"done\",\"suggestions\":[],\"score\":7.3,\"scoreReasoning\":\"ok\"\x7d"

/-- A typed analysis with no findings at all. -/
def emptyAnalysisT : CallAnalysisT :=
  CallAnalysisT.mk "" [] (AnomaliesT.mk (AnomalyBucketT.mk [] []) (AnomalyBucketT.mk [] []))
    "" [] (Rat.divInt 0 1) ""

example : jsonParseStr "Sorry, I cannot analyze this." = none := by rfl

example : jsonParseStr "7.3" = some (JsVal.num (Rat.divInt 73 10)) := by rfl

example : jsonParseStr " [1, 2.5, \"a\", true, null] " =
    some (JsVal.arr [JsVal.num (Rat.divInt 1 1), JsVal.num (Rat.divInt 5 2),
      JsVal.str "a", JsVal.bool true, JsVal.null]) := by rfl

example : jsonParseStr "\x7b\"a\":1" = none := by rfl

/-- The parse block yields either the fallback analysis or, verbatim,
the JSON value parsed from the sanitized content. -/
theorem processContent_fallback_or_verbatim (content transcript : String) :
    (processContent content transcript).analysis = fallbackAnalysis transcript
    ∨ jsonParseStr (jsTrim (sanitizeContent content))
        = some (processContent content transcript).analysis := by
  unfold processContent
  cases hp : jsonParseStr (jsTrim (sanitizeContent content)) with
  | none => left; rfl
  | some v =>
    dsimp only
    cases hle : legacyExtract v with
    | error u => left; rfl
    | ok p =>
      obtain ⟨ans, sugg⟩ := p
      right; rfl

/-- The fallback analysis is structurally complete. -/
theorem fallbackAnalysis_complete (t : String) :
    isCompleteCallAnalysis (fallbackAnalysis t) = true := by rfl

/-- Claim C6 (confirmed): on the scenario-D input — caller positive
findings ["explained the refund process professionally"], receiver
positive findings empty, suggestions empty — rule 1 fails for lack of
suggestions, rule 2 fires on caller-only agent-skill evidence, and the
role inferencer assigns agent = Caller, customer = Receiver. -/
theorem identifyRoles_scenarioD :
    identifyRoles (some scenarioD) [] = some (RoleMap.mk "Caller" "Receiver") := by
  rfl

/-- Claim C3 counterexample: for the parsed model response whose
anomalies object lacks the receiver bucket entirely, the pipeline does
not fall back: it returns a 200 whose legacy anomalies are the silently
defaulted caller lists, and whose analysis is not the fallback record
(its score member is absent, the fallback's is 5). -/
theorem serve_missing_bucket_not_fallback :
    isOkResult (serve (envWith contentMissingReceiver)) = true
    ∧ resultLegacyAnoms (serve (envWith contentMissingReceiver))
        = [JsVal.str "a", JsVal.str "b"]
    ∧ resultScore (serve (envWith contentMissingReceiver)) = none
    ∧ scoreOf (fallbackAnalysis "hello world transcript") = some (Rat.divInt 5 1) := by
  exact ⟨rfl, rfl, rfl, rfl⟩

/-- Claim C3 amended: when the parsed anomalies object is present but
empty (both party buckets absent), the legacy extraction does not fail
and does not fall back; every absent list is silently defaulted to
empty, so the flattened legacy anomalies are []. -/
theorem legacyExtract_missing_buckets_default_empty
    (rest : List (String × JsVal)) :
    ∃ s, legacyExtract (JsVal.obj (("anomalies", JsVal.obj []) :: rest))
      = Except.ok ([], s) := by
  exact ⟨jsOr ((jsLookup rest "suggestions").getD JsVal.undef) (JsVal.arr []), rfl⟩

/-- Claim C1 counterexample: the model response consisting only of an
empty anomalies object parses, the pipeline returns a 200, and the
returned analysis is structurally incomplete (six of the seven
CallAnalysis fields are absent). -/
theorem serve_ok_incomplete_analysis :
    isOkResult (serve (envWith contentBareAnomalies)) = true
    ∧ isCompleteCallAnalysis (resultAnalysis (serve (envWith contentBareAnomalies)))
        = false := by
  exact ⟨rfl, rfl⟩

/-- Claim C2 counterexample: a parsed score of 999 — far outside
[0, 10] — is not treated as a validation failure: the pipeline returns
a 200 whose analysis carries score 999 unchanged rather than the
fallback's score of 5. -/
theorem serve_out_of_range_score_passthrough :
    isOkResult (serve (envWith contentScore999)) = true
    ∧ resultScore (serve (envWith contentScore999)) = some (Rat.divInt 999 1)
    ∧ ¬ Rat.divInt 999 1 ≤ Rat.divInt 10 1
    ∧ resultScore (serve (envWith contentScore999))
        ≠ scoreOf (fallbackAnalysis "hello world transcript") := by
  refine ⟨rfl, rfl, by decide, ?_⟩
  intro h
  exact absurd h (by decide)

/-- Claim C5 amended: for a parsed analysis whose four anomaly lists
are all present as arrays, the legacy extraction is exactly the
concatenation caller.positive ++ caller.negative ++ receiver.positive
++ receiver.negative, each sub-list's order preserved; the fallback
path instead carries a fixed one-element legacy list that is not that
concatenation. -/
theorem legacyExtract_concat_of_present_lists (cp cn rp rn : List JsVal)
    (rest : List (String × JsVal)) :
    ∃ s, legacyExtract (JsVal.obj (("anomalies", mkAnomaliesVal cp cn rp rn) :: rest))
      = Except.ok (cp ++ cn ++ rp ++ rn, s) := by
  exact ⟨jsOr ((jsLookup rest "suggestions").getD JsVal.undef) (JsVal.arr []), rfl⟩

/-- Claim C5 counterexample: on a fallback result the legacy flattened
anomalies are the fixed singleton ["Analysis processing error"], while
the concatenation of the four lists of the returned analysis has two
elements — the lengths 1 and 2 differ, refuting the claimed equality
for every returned result. -/
theorem fallback_legacy_not_concat :
    isOkResult (serve (envWith "no json here!")) = true
    ∧ resultLegacyAnoms (serve (envWith "no json here!"))
        = [JsVal.str "Analysis processing error"]
    ∧ specFlattenAnomalies (resultAnalysis (serve (envWith "no json here!")))
        = some [JsVal.str "Analysis error - manual review required",
                JsVal.str "Analysis error - manual review required"]
    ∧ (resultLegacyAnoms (serve (envWith "no json here!"))).length = 1
    ∧ (specFlattenAnomalies (resultAnalysis (serve (envWith "no json here!")))).map
        List.length = some 2
    ∧ (1 : Nat) ≠ 2 := by
  exact ⟨rfl, rfl, rfl, rfl, rfl, by decide⟩

/-- Claim C8 amended: the single synthesized transcript segment of a
fallback analysis is tagged with the neutral marker speaker "System" —
not one of the two party labels — and timestamp "00:00"; parse-path
segments are passed through unvalidated. -/
theorem fallbackAnalysis_speaker_system (t : String) :
    segmentSpeakerStrs (fallbackAnalysis t) = some ["System"]
    ∧ segmentTimestampStrs (fallbackAnalysis t) = some ["00:00"] := by
  exact ⟨rfl, rfl⟩

/-- Claim C8 counterexample: a returned fallback analysis has a
transcript segment whose speaker is "System", which is neither of the
party labels "Caller" and "Receiver". -/
theorem serve_fallback_segment_speaker_not_party :
    isOkResult (serve (envWith "analysis failed!!")) = true
    ∧ segmentSpeakerStrs (resultAnalysis (serve (envWith "analysis failed!!")))
        = some ["System"]
    ∧ ("System" : String) ≠ "Caller"
    ∧ ("System" : String) ≠ "Receiver" := by
  exact ⟨rfl, rfl, by decide, by decide⟩

/-- Claim C4 (confirmed): whenever the request carries audio, the
credential is configured and both upstream calls succeed, a model
content that cannot be parsed into the CallAnalysis shape (unparseable
JSON, or a parsed value on which the legacy extraction throws) does not
raise: the handler returns a 200 success body whose analysis is the
deterministic fallback record — score exactly 5, the fixed objective /
conclusion / scoreReasoning markers, a single "System" segment holding
the first-500-character prefix of the raw transcript at timestamp
"00:00", the single manual-review suggestion, empty positive lists and
the single fixed negative finding on both parties. -/
theorem serve_unparseable_returns_fallback (e : Env)
    (h1 : jsFalsyOptStr e.audio = false) (h2 : jsFalsyOptStr e.apiKey = false)
    (h3 : e.whisperOk = true) (h4 : e.analysisOk = true)
    (h5 : jsonParseStr (jsTrim (sanitizeContent e.analysisContent)) = none
          ∨ ∃ v, jsonParseStr (jsTrim (sanitizeContent e.analysisContent)) = some v
              ∧ legacyExtract v = Except.error ()) :
    serve e = ServeResult.ok (SuccessBody.mk e.whisperText
        [JsVal.str "Analysis processing error"]
        (JsVal.arr [JsVal.str "Manual review recommended"])
        (jsRound e.whisperDuration) (fallbackAnalysis e.whisperText))
    ∧ scoreOf (fallbackAnalysis e.whisperText) = some (Rat.divInt 5 1)
    ∧ strFieldOf (fallbackAnalysis e.whisperText) "objective"
        = some "Unable to determine call objective"
    ∧ strFieldOf (fallbackAnalysis e.whisperText) "conclusion"
        = some "Call analysis could not be completed due to processing error"
    ∧ strFieldOf (fallbackAnalysis e.whisperText) "scoreReasoning"
        = some "Score not available due to analysis error"
    ∧ arrFieldOf (fallbackAnalysis e.whisperText) "suggestions"
        = some [JsVal.str "Manual review of call recording recommended"]
    ∧ anomalyListOf (fallbackAnalysis e.whisperText) "caller" "positive" = some []
    ∧ anomalyListOf (fallbackAnalysis e.whisperText) "receiver" "positive" = some []
    ∧ anomalyListOf (fallbackAnalysis e.whisperText) "caller" "negative"
        = some [JsVal.str "Analysis error - manual review required"]
    ∧ anomalyListOf (fallbackAnalysis e.whisperText) "receiver" "negative"
        = some [JsVal.str "Analysis error - manual review required"]
    ∧ segmentTextStrs (fallbackAnalysis e.whisperText)
        = some [String.mk (e.whisperText.data.take 500) ++ "..."]
    ∧ segmentTimestampStrs (fallbackAnalysis e.whisperText) = some ["00:00"]
    ∧ (e.whisperText.data.take 500).length ≤ 500 := by
  have hout : processContent e.analysisContent e.whisperText = fallbackOut e.whisperText := by
    unfold processContent
    rcases h5 with h5 | ⟨v, hv, hle⟩
    · rw [h5]
    · rw [hv]
      dsimp only
      rw [hle]
  refine ⟨?_, rfl, rfl, rfl, rfl, rfl, rfl, rfl, rfl, rfl, rfl, rfl, ?_⟩
  · unfold serve
    rw [h1, h2, h3, h4]
    simp only [Bool.false_eq_true, if_false, if_true, Bool.true_eq_false, hout]
    rfl
  · have := List.length_take 500 e.whisperText.data
    omega

/-- Claim C4 witness: the non-JSON model text "Sorry, I cannot analyze
this." yields the 200 fallback result. -/
theorem serve_unparseable_returns_fallback_witness :
    serve (envWith "Sorry, I cannot analyze this.") = ServeResult.ok
      (SuccessBody.mk "hello world transcript"
        [JsVal.str "Analysis processing error"]
        (JsVal.arr [JsVal.str "Manual review recommended"])
        (jsRound (Rat.divInt 12 1)) (fallbackAnalysis "hello world transcript")) :=
  (serve_unparseable_returns_fallback (envWith "Sorry, I cannot analyze this.")
    rfl rfl rfl rfl (Or.inl rfl)).1

/-- Claim C1 amended: on every 200 response the analysis is either
structurally complete (as the fallback record always is) or it is,
verbatim and unvalidated, the JSON value parsed from the sanitized
model text — the handler performs no structural validation on the
parse path. -/
theorem serve_ok_analysis_complete_or_verbatim (e : Env) (b : SuccessBody)
    (h : serve e = ServeResult.ok b) :
    isCompleteCallAnalysis b.analysis = true
    ∨ jsonParseStr (jsTrim (sanitizeContent e.analysisContent)) = some b.analysis := by
  unfold serve at h
  split at h
  · exact ServeResult.noConfusion h
  · split at h
    · exact ServeResult.noConfusion h
    · split at h
      · exact ServeResult.noConfusion h
      · split at h
        · exact ServeResult.noConfusion h
        · injection h with h'
          rcases processContent_fallback_or_verbatim e.analysisContent e.whisperText
            with hc | hv
          · left
            rw [← h']
            dsimp only
            rw [hc]
            exact fallbackAnalysis_complete e.whisperText
          · right
            rw [← h']
            dsimp only
            exact hv

/-- Claim C1 witness: applied to the unparseable content "zz", whose
200 response carries the (complete) fallback analysis. -/
theorem serve_ok_analysis_complete_or_verbatim_witness :
    isCompleteCallAnalysis (fallbackAnalysis "hello world transcript") = true
    ∨ jsonParseStr (jsTrim (sanitizeContent "zz"))
        = some (fallbackAnalysis "hello world transcript") :=
  serve_ok_analysis_complete_or_verbatim (envWith "zz")
    (SuccessBody.mk "hello world transcript"
      [JsVal.str "Analysis processing error"]
      (JsVal.arr [JsVal.str "Manual review recommended"])
      (jsRound (Rat.divInt 12 1)) (fallbackAnalysis "hello world transcript")) rfl

/-- Claim C2 amended: the handler performs no score validation: a 200
response carries either the fallback analysis, whose score is the fixed
sentinel 5, or — verbatim, including any out-of-range score — the JSON
value parsed from the sanitized model text. -/
theorem serve_ok_score_sentinel_or_passthrough (e : Env) (b : SuccessBody)
    (h : serve e = ServeResult.ok b) :
    (b.analysis = fallbackAnalysis e.whisperText
      ∧ scoreOf b.analysis = some (Rat.divInt 5 1))
    ∨ jsonParseStr (jsTrim (sanitizeContent e.analysisContent)) = some b.analysis := by
  unfold serve at h
  split at h
  · exact ServeResult.noConfusion h
  · split at h
    · exact ServeResult.noConfusion h
    · split at h
      · exact ServeResult.noConfusion h
      · split at h
        · exact ServeResult.noConfusion h
        · injection h with h'
          rcases processContent_fallback_or_verbatim e.analysisContent e.whisperText
            with hc | hv
          · left
            rw [← h']
            dsimp only
            rw [hc]
            exact ⟨rfl, rfl⟩
          · right
            rw [← h']
            dsimp only
            exact hv

/-- Claim C2 witness: applied to the unparseable content "??", whose
200 response carries the fallback analysis with sentinel score 5. -/
theorem serve_ok_score_sentinel_or_passthrough_witness :
    ((fallbackAnalysis "hello world transcript" : JsVal)
        = fallbackAnalysis "hello world transcript"
      ∧ scoreOf (fallbackAnalysis "hello world transcript") = some (Rat.divInt 5 1))
    ∨ jsonParseStr (jsTrim (sanitizeContent "??"))
        = some (fallbackAnalysis "hello world transcript") :=
  serve_ok_score_sentinel_or_passthrough (envWith "??")
    (SuccessBody.mk "hello world transcript"
      [JsVal.str "Analysis processing error"]
      (JsVal.arr [JsVal.str "Manual review recommended"])
      (jsRound (Rat.divInt 12 1)) (fallbackAnalysis "hello world transcript")) rfl

/-- Claim C7 (confirmed): the role inferencer is pure and deterministic
— its result depends only on the anomalies (and the suggestions it is
given); whenever both parties or neither party exhibits agent-skill
keyword evidence it returns the default agent = Receiver with
customer = Caller; and the two roles it assigns are always the
complementary pair. -/
theorem identifyRoles_pure_default_complementary
    (a a2 : CallAnalysisT) (s : List String) :
    (a.anomalies = a2.anomalies →
      identifyRoles (some a) s = identifyRoles (some a2) s)
    ∧ (hasAgentSkillEvidence a.anomalies.caller.positive
        = hasAgentSkillEvidence a.anomalies.receiver.positive →
       identifyRoles (some a) s = some (RoleMap.mk "Receiver" "Caller"))
    ∧ (∀ r, identifyRoles (some a) s = some r →
        r = RoleMap.mk "Receiver" "Caller" ∨ r = RoleMap.mk "Caller" "Receiver") := by
  have reduce : ∀ x : CallAnalysisT, identifyRoles (some x) s =
      (if (decide (s.length > 0)
            && hasAgentSkillEvidence x.anomalies.receiver.positive
            && !hasAgentSkillEvidence x.anomalies.caller.positive) = true then
        some (RoleMap.mk "Receiver" "Caller")
      else if (hasAgentSkillEvidence x.anomalies.caller.positive
            && !hasAgentSkillEvidence x.anomalies.receiver.positive) = true then
        some (RoleMap.mk "Caller" "Receiver")
      else some (RoleMap.mk "Receiver" "Caller")) := fun x => rfl
  refine ⟨?_, ?_, ?_⟩
  · intro hanom
    rw [reduce a, reduce a2, hanom]
  · intro heq
    rw [reduce a]
    cases hc : hasAgentSkillEvidence a.anomalies.caller.positive with
    | true =>
      have hR : hasAgentSkillEvidence a.anomalies.receiver.positive = true :=
        heq.symm.trans hc
      simp [hc, hR]
    | false =>
      have hR : hasAgentSkillEvidence a.anomalies.receiver.positive = false :=
        heq.symm.trans hc
      simp [hc, hR]
  · intro r hr
    rw [reduce a] at hr
    split at hr
    · exact Or.inl (Option.some.inj hr).symm
    · split at hr
      · exact Or.inr (Option.some.inj hr).symm
      · exact Or.inl (Option.some.inj hr).symm

/-- Claim C7 witness: on the empty analysis (no evidence on either
side) with no suggestions the default applies. -/
theorem identifyRoles_pure_default_complementary_witness :
    identifyRoles (some emptyAnalysisT) [] = some (RoleMap.mk "Receiver" "Caller") :=
  (identifyRoles_pure_default_complementary emptyAnalysisT emptyAnalysisT []).2.1 rfl

/-- Within the decode-abstracted core `serve`, a failure result arises
exactly for its four modeled conditions, and every failure body carries
the fixed degraded fields: transcript "Error during transcription",
empty anomalies and suggestions, duration 0, and the fixed empty-shaped
analysis whose score is 0. -/
theorem serve_fail_iff_fatal (e : Env) :
    ((∃ fb, serve e = ServeResult.fail fb) ↔
      (jsFalsyOptStr e.audio = true ∨ jsFalsyOptStr e.apiKey = true
        ∨ e.whisperOk = false ∨ e.analysisOk = false))
    ∧ (∀ fb, serve e = ServeResult.fail fb →
        fb.transcript = "Error during transcription" ∧ fb.anomalies = []
        ∧ fb.suggestions = [] ∧ fb.duration = 0 ∧ fb.analysis = errorAnalysis
        ∧ scoreOf fb.analysis = some (Rat.divInt 0 1)) := by
  constructor
  · constructor
    · intro hex
      obtain ⟨fb, hfb⟩ := hex
      unfold serve at hfb
      split at hfb
      · rename_i hc
        exact Or.inl hc
      · split at hfb
        · rename_i hc
          exact Or.inr (Or.inl hc)
        · split at hfb
          · rename_i hc
            exact Or.inr (Or.inr (Or.inl hc))
          · split at hfb
            · rename_i hc
              exact Or.inr (Or.inr (Or.inr hc))
            · exact ServeResult.noConfusion hfb
    · intro hdisj
      unfold serve
      split
      · exact ⟨_, rfl⟩
      · split
        · exact ⟨_, rfl⟩
        · split
          · exact ⟨_, rfl⟩
          · split
            · exact ⟨_, rfl⟩
            · rename_i hc1 hc2 hc3 hc4
              rcases hdisj with h | h | h | h
              · exact absurd h hc1
              · exact absurd h hc2
              · exact absurd h hc3
              · exact absurd h hc4
  · intro fb hfb
    unfold serve at hfb
    split at hfb
    · injection hfb with h
      rw [← h]
      exact ⟨rfl, rfl, rfl, rfl, rfl, rfl⟩
    · split at hfb
      · injection hfb with h
        rw [← h]
        exact ⟨rfl, rfl, rfl, rfl, rfl, rfl⟩
      · split at hfb
        · injection hfb with h
          rw [← h]
          exact ⟨rfl, rfl, rfl, rfl, rfl, rfl⟩
        · split at hfb
          · injection hfb with h
            rw [← h]
            exact ⟨rfl, rfl, rfl, rfl, rfl, rfl⟩
          · exact ServeResult.noConfusion hfb

/-- String concatenation concatenates character data. -/
theorem str_data_append (a b : String) : (a ++ b).data = a.data ++ b.data := rfl

/-- A list is a prefix of itself followed by anything. -/
theorem isPrefixOf_append_self (pat rest : List Char) :
    pat.isPrefixOf (pat ++ rest) = true := by
  induction pat with
  | nil => simp [List.isPrefixOf]
  | cons c t ih => simp [List.isPrefixOf, ih]

/-- The first match of a pattern that is a prefix is at index 0. -/
theorem patIndex_of_leading_match (pat l : List Char) (h : pat.isPrefixOf l = true) :
    patIndex pat l = some 0 := by
  cases l with
  | nil => simp [patIndex, h]
  | cons c t => simp [patIndex, h]

/-- A text that starts with the pattern `includes` it. -/
theorem containsPat_append_self (pat rest : List Char) :
    containsPat (pat ++ rest) pat = true := by
  simp [containsPat, patIndex_of_leading_match _ _ (isPrefixOf_append_self pat rest)]

/-- Taking the length of the left part of an append returns it. -/
theorem take_length_append (a b : List Char) : (a ++ b).take a.length = a := by
  induction a with
  | nil => rfl
  | cons c t ih => simp [ih]

/-- Dropping the length of the left part of an append removes it. -/
theorem drop_length_append (a b : List Char) : (a ++ b).drop a.length = b := by
  induction a with
  | nil => rfl
  | cons c t ih => simp [ih]

/-- Stripping the first occurrence of a leading pattern removes it and
the whitespace run after it. -/
theorem stripFirstPat_append_self (pat rest : List Char) :
    stripFirstPat (pat ++ rest) pat = wsDrop rest := by
  unfold stripFirstPat
  rw [patIndex_of_leading_match _ _ (isPrefixOf_append_self pat rest)]
  simp [drop_length_append]

/-- Dropping leading whitespace skips a whitespace head. -/
theorem wsDrop_cons_ws (c : Char) (l : List Char) (h : isJsWs c = true) :
    wsDrop (c :: l) = wsDrop l := by
  simp [wsDrop, List.dropWhile, h]

/-- When a part is all whitespace, leading-whitespace removal continues
past it. -/
theorem wsDrop_append_empty (a b : List Char) (h : wsDrop a = []) :
    wsDrop (a ++ b) = wsDrop b := by
  induction a with
  | nil => rfl
  | cons c t ih =>
    cases hc : isJsWs c with
    | true =>
      simp only [wsDrop, List.cons_append, List.dropWhile, hc] at h ⊢
      exact ih h
    | false => simp [wsDrop, List.dropWhile, hc] at h

/-- When a part is not all whitespace, leading-whitespace removal stops
inside it. -/
theorem wsDrop_append_ne (a b : List Char) (h : ¬ wsDrop a = []) :
    wsDrop (a ++ b) = wsDrop a ++ b := by
  induction a with
  | nil => exact absurd rfl h
  | cons c t ih =>
    cases hc : isJsWs c with
    | true =>
      simp only [wsDrop, List.cons_append, List.dropWhile, hc] at h ⊢
      exact ih h
    | false =>
      simp [wsDrop, List.cons_append, List.dropWhile, hc]

/-- A list is a suffix of anything followed by itself. -/
theorem isSuffixOf_append_self (f a : List Char) :
    f.isSuffixOf (a ++ f) = true := by
  simp [List.isSuffixOf, List.reverse_append, isPrefixOf_append_self]

/-- Stripping the trailing fence from a text that ends with the fence
removes it and the trailing whitespace before it. -/
theorem stripTrailingFence_append (a : List Char) :
    stripTrailingFence (a ++ "```".data) = wsDropEnd a := by
  have hf : ("```".data).length = 3 := rfl
  unfold stripTrailingFence
  simp [isSuffixOf_append_self, List.length_append, hf, Nat.add_sub_cancel,
    take_length_append]

/-- Appending a whitespace character does not change trailing-whitespace
removal. -/
theorem wsDropEnd_append_ws (a : List Char) (c : Char) (h : isJsWs c = true) :
    wsDropEnd (a ++ [c]) = wsDropEnd a := by
  induction a with
  | nil => simp [wsDropEnd, h]
  | cons x t ih =>
    show wsDropEnd (x :: (t ++ [c])) = wsDropEnd (x :: t)
    unfold wsDropEnd
    rw [ih]

/-- One unfolding of trailing-whitespace removal at a cons cell. -/
theorem wsDropEnd_cons (c : Char) (t : List Char) :
    wsDropEnd (c :: t) = (match wsDropEnd t with
      | [] => if isJsWs c then [] else [c]
      | r => c :: r) := rfl

/-- Leading-whitespace removal is idempotent. -/
theorem wsDrop_idem (l : List Char) : wsDrop (wsDrop l) = wsDrop l := by
  induction l with
  | nil => rfl
  | cons c t ih =>
    cases hc : isJsWs c with
    | true =>
      simp only [wsDrop, List.dropWhile, hc]
      exact ih
    | false => simp [wsDrop, List.dropWhile, hc]

/-- Trailing-whitespace removal is idempotent. -/
theorem wsDropEnd_idem (l : List Char) : wsDropEnd (wsDropEnd l) = wsDropEnd l := by
  induction l with
  | nil => rfl
  | cons c t ih =>
    cases hr : wsDropEnd t with
    | nil =>
      cases hc : isJsWs c with
      | true => simp [wsDropEnd, hr, hc]
      | false => simp [wsDropEnd, hr, hc]
    | cons y ys =>
      rw [hr] at ih
      have h1 : wsDropEnd (c :: t) = c :: y :: ys := by
        rw [wsDropEnd_cons, hr]
      rw [h1, wsDropEnd_cons, ih]

/-- Trailing-whitespace removal preserves a non-whitespace head, so
leading removal after it is the identity. -/
theorem wsDrop_wsDropEnd (l : List Char) (h : wsDrop l = l) :
    wsDrop (wsDropEnd l) = wsDropEnd l := by
  cases l with
  | nil => rfl
  | cons c t =>
    have hc : isJsWs c = false := by
      cases hcc : isJsWs c with
      | false => rfl
      | true =>
        simp only [wsDrop, List.dropWhile, hcc] at h
        have h1 := congrArg List.length h
        have h2 : ∀ l : List Char, (List.dropWhile isJsWs l).length ≤ l.length := by
          intro l
          induction l with
          | nil => simp
          | cons x xs ihx =>
            cases hx : isJsWs x
            · simp [List.dropWhile, hx]
            · simp [List.dropWhile, hx]
              omega
        have h3 := h2 t
        simp at h1
        omega
    cases hr : wsDropEnd t with
    | nil => simp [wsDropEnd, hr, hc, wsDrop, List.dropWhile]
    | cons y ys => simp [wsDropEnd, hr, hc, wsDrop, List.dropWhile]

/-- The parse-site trim is idempotent. -/
theorem jsTrim_idem (s : String) : jsTrim (jsTrim s) = jsTrim s := by
  unfold jsTrim
  show String.mk (jsTrimL (jsTrimL s.data)) = String.mk (jsTrimL s.data)
  unfold jsTrimL
  rw [wsDrop_wsDropEnd _ (wsDrop_idem s.data), wsDropEnd_idem]

/-- Sanitizing a text wrapped in a labeled "```json" fence yields the
trimmed inner text. -/
theorem sanitize_json_wrapped (t : String) :
    sanitizeContent ("```json\n" ++ t ++ "\n```") = jsTrim t := by
  unfold sanitizeContent jsTrim
  show String.mk (sanitizeContentL ("```json\n" ++ t ++ "\n```").data)
      = String.mk (jsTrimL t.data)
  have hdata : ("```json\n" ++ t ++ "\n```").data
      = "```json".data ++ (('\n' :: t.data) ++ ('\n' :: "```".data)) := by
    rw [str_data_append, str_data_append]
    rfl
  rw [hdata]
  unfold sanitizeContentL
  simp only [containsPat_append_self, if_true]
  rw [stripFirstPat_append_self]
  have hnl : isJsWs '\n' = true := rfl
  rw [List.cons_append, wsDrop_cons_ws _ _ hnl]
  by_cases hE : wsDrop t.data = []
  · rw [wsDrop_append_empty _ _ hE]
    have h1 : wsDrop ('\n' :: "```".data) = "```".data := rfl
    have h2 : stripTrailingFence ("```".data) = [] := rfl
    rw [h1, h2]
    unfold jsTrimL
    rw [hE]
    rfl
  · rw [wsDrop_append_ne _ _ hE]
    have hsplit : wsDrop t.data ++ ('\n' :: "```".data)
        = (wsDrop t.data ++ ['\n']) ++ "```".data := by
      rw [List.append_assoc]
      rfl
    rw [hsplit, stripTrailingFence_append, wsDropEnd_append_ws _ _ hnl]
    rfl

/-- Sanitizing a text wrapped in a plain "```" fence yields the trimmed
inner text, provided the wrapped text nowhere contains the labeled
marker "```json". -/
theorem sanitize_plain_wrapped (t : String)
    (h : containsPat (("```\n" ++ t ++ "\n```").data) ("```json".data) = false) :
    sanitizeContent ("```\n" ++ t ++ "\n```") = jsTrim t := by
  unfold sanitizeContent jsTrim
  show String.mk (sanitizeContentL ("```\n" ++ t ++ "\n```").data)
      = String.mk (jsTrimL t.data)
  have hdata : ("```\n" ++ t ++ "\n```").data
      = "```".data ++ (('\n' :: t.data) ++ ('\n' :: "```".data)) := by
    rw [str_data_append, str_data_append]
    rfl
  rw [hdata] at h
  rw [hdata]
  unfold sanitizeContentL
  rw [h]
  simp only [containsPat_append_self, if_true, Bool.false_eq_true, if_false]
  rw [stripFirstPat_append_self]
  have hnl : isJsWs '\n' = true := rfl
  rw [List.cons_append, wsDrop_cons_ws _ _ hnl]
  by_cases hE : wsDrop t.data = []
  · rw [wsDrop_append_empty _ _ hE]
    have h1 : wsDrop ('\n' :: "```".data) = "```".data := rfl
    have h2 : stripTrailingFence ("```".data) = [] := rfl
    rw [h1, h2]
    unfold jsTrimL
    rw [hE]
    rfl
  · rw [wsDrop_append_ne _ _ hE]
    have hsplit : wsDrop t.data ++ ('\n' :: "```".data)
        = (wsDrop t.data ++ ['\n']) ++ "```".data := by
      rw [List.append_assoc]
      rfl
    rw [hsplit, stripTrailingFence_append, wsDropEnd_append_ws _ _ hnl]
    rfl

/-- Claim C10 amended: for every text t, sanitizing t wrapped in a
labeled "```json" fence and trimming yields text that parses exactly as
the trimmed unwrapped t does; the same holds for a plain "```" fence
provided the wrapped text nowhere contains the marker "```json" (when
it does, the sanitizer removes the interior marker instead of the
leading fence and the parses can differ). -/
theorem sanitizer_fence_strip_parse_agree (t : String) :
    jsonParseStr (jsTrim (sanitizeContent ("```json\n" ++ t ++ "\n```")))
      = jsonParseStr (jsTrim t)
    ∧ (containsPat (("```\n" ++ t ++ "\n```").data) ("```json".data) = false →
       jsonParseStr (jsTrim (sanitizeContent ("```\n" ++ t ++ "\n```")))
         = jsonParseStr (jsTrim t)) := by
  constructor
  · rw [sanitize_json_wrapped, jsTrim_idem]
  · intro h
    rw [sanitize_plain_wrapped t h, jsTrim_idem]

/-- Claim C10 witness: a small score-carrying JSON body wrapped in a
plain fence parses identically to its unwrapped form. -/
theorem sanitizer_fence_strip_parse_agree_witness :
    jsonParseStr (jsTrim (sanitizeContent
        ("```\n" ++ "\x7b\"score\": 7.3\x7d" ++ "\n```")))
      = jsonParseStr (jsTrim "\x7b\"score\": 7.3\x7d") :=
  (sanitizer_fence_strip_parse_agree "\x7b\"score\": 7.3\x7d").2 rfl

/-- Claim C10 counterexample: the valid CallAnalysis JSON text
`c10Json`, whose objective string contains "```json", parses complete
when unwrapped, but after wrapping in a plain "```" fence the sanitizer
strips the interior marker instead of the leading fence and the
sanitized text no longer parses at all — refuting the claimed
equivalence for every valid JSON payload. -/
theorem sanitize_plain_fence_marker_breaks :
    (jsonParseStr (jsTrim c10Json)).isSome = true
    ∧ isCompleteCallAnalysis ((jsonParseStr (jsTrim c10Json)).getD JsVal.null) = true
    ∧ jsonParseStr (jsTrim (sanitizeContent ("```\n" ++ c10Json ++ "\n```"))) = none := by
  exact ⟨rfl, rfl, rfl⟩

/-- Claim C9 counterexample: a present, truthy audio string ("!!!")
that forgiving-base64 rejects, with the credential configured and both
upstream calls successful, still produces a 500 carrying the fixed
empty-shaped analysis — the decode step throws and the outer catch
converts the exception — so none of the three listed fatal conditions
holds, refuting "no other condition yields a 500". -/
theorem serve_500_beyond_listed_fatals :
    isOkResult (serveWithDecode envBadAudio) = false
    ∧ resultAnalysis (serveWithDecode envBadAudio) = errorAnalysis
    ∧ jsFalsyOptStr envBadAudio.audio = false
    ∧ jsFalsyOptStr envBadAudio.apiKey = false
    ∧ envBadAudio.whisperOk = true
    ∧ envBadAudio.analysisOk = true := by
  exact ⟨rfl, rfl, rfl, rfl, rfl, rfl⟩

/-- Claim C9 amended: each of the fatal failures — missing audio,
missing credential, undecodable audio at the base64 decode step, or a
non-success status from the transcription or the analysis service —
produces a 500, and every 500 body carries the fixed degraded fields:
transcript "Error during transcription", empty anomalies and
suggestions, duration 0, and the fixed empty-shaped analysis whose
score is 0.  The listed conditions are not exhaustive: any exception
reaching the outer catch yields the same-shaped 500. -/
theorem serve_500_on_fatal_and_decode_failures (e : Env) :
    (jsFalsyOptStr e.audio = true → ∃ fb, serveWithDecode e = ServeResult.fail fb)
    ∧ (jsFalsyOptStr e.apiKey = true → ∃ fb, serveWithDecode e = ServeResult.fail fb)
    ∧ (atobOk (e.audio.getD "") = false →
        ∃ fb, serveWithDecode e = ServeResult.fail fb)
    ∧ (e.whisperOk = false → ∃ fb, serveWithDecode e = ServeResult.fail fb)
    ∧ (e.analysisOk = false → ∃ fb, serveWithDecode e = ServeResult.fail fb)
    ∧ (∀ fb, serveWithDecode e = ServeResult.fail fb →
        fb.transcript = "Error during transcription" ∧ fb.anomalies = []
        ∧ fb.suggestions = [] ∧ fb.duration = 0 ∧ fb.analysis = errorAnalysis
        ∧ scoreOf fb.analysis = some (Rat.divInt 0 1)) := by
  refine ⟨?_, ?_, ?_, ?_, ?_, ?_⟩
  · intro h
    unfold serveWithDecode
    simp only [if_pos h]
    exact ⟨_, rfl⟩
  · intro h
    by_cases h1 : jsFalsyOptStr e.audio = true
    · unfold serveWithDecode
      simp only [if_pos h1]
      exact ⟨_, rfl⟩
    · unfold serveWithDecode
      simp only [if_neg h1, if_pos h]
      exact ⟨_, rfl⟩
  · intro h
    by_cases h1 : jsFalsyOptStr e.audio = true
    · unfold serveWithDecode
      simp only [if_pos h1]
      exact ⟨_, rfl⟩
    · by_cases h2 : jsFalsyOptStr e.apiKey = true
      · unfold serveWithDecode
        simp only [if_neg h1, if_pos h2]
        exact ⟨_, rfl⟩
      · unfold serveWithDecode
        simp only [if_neg h1, if_neg h2, if_pos h]
        exact ⟨_, rfl⟩
  · intro h
    by_cases h1 : jsFalsyOptStr e.audio = true
    · unfold serveWithDecode
      simp only [if_pos h1]
      exact ⟨_, rfl⟩
    · by_cases h2 : jsFalsyOptStr e.apiKey = true
      · unfold serveWithDecode
        simp only [if_neg h1, if_pos h2]
        exact ⟨_, rfl⟩
      · by_cases h3 : atobOk (e.audio.getD "") = false
        · unfold serveWithDecode
          simp only [if_neg h1, if_neg h2, if_pos h3]
          exact ⟨_, rfl⟩
        · unfold serveWithDecode serve
          simp only [if_neg h1, if_neg h2, if_neg h3, if_pos h]
          exact ⟨_, rfl⟩
  · intro h
    by_cases h1 : jsFalsyOptStr e.audio = true
    · unfold serveWithDecode
      simp only [if_pos h1]
      exact ⟨_, rfl⟩
    · by_cases h2 : jsFalsyOptStr e.apiKey = true
      · unfold serveWithDecode
        simp only [if_neg h1, if_pos h2]
        exact ⟨_, rfl⟩
      · by_cases h3 : atobOk (e.audio.getD "") = false
        · unfold serveWithDecode
          simp only [if_neg h1, if_neg h2, if_pos h3]
          exact ⟨_, rfl⟩
        · by_cases h4 : e.whisperOk = false
          · unfold serveWithDecode serve
            simp only [if_neg h1, if_neg h2, if_neg h3, if_pos h4]
            exact ⟨_, rfl⟩
          · unfold serveWithDecode serve
            simp only [if_neg h1, if_neg h2, if_neg h3, if_neg h4, if_pos h]
            exact ⟨_, rfl⟩
  · intro fb hfb
    unfold serveWithDecode at hfb
    split at hfb
    · injection hfb with h'
      rw [← h']
      exact ⟨rfl, rfl, rfl, rfl, rfl, rfl⟩
    · split at hfb
      · injection hfb with h'
        rw [← h']
        exact ⟨rfl, rfl, rfl, rfl, rfl, rfl⟩
      · split at hfb
        · injection hfb with h'
          rw [← h']
          exact ⟨rfl, rfl, rfl, rfl, rfl, rfl⟩
        · exact (serve_fail_iff_fatal e).2 fb hfb

/-- Claim C9 witness: the missing-credential environment produces the
fixed degraded 500 body. -/
theorem serve_500_on_fatal_and_decode_failures_witness :
    (mkFailure "OpenAI API key not configured").transcript
        = "Error during transcription"
    ∧ (mkFailure "OpenAI API key not configured").anomalies = []
    ∧ (mkFailure "OpenAI API key not configured").suggestions = []
    ∧ (mkFailure "OpenAI API key not configured").duration = 0
    ∧ (mkFailure "OpenAI API key not configured").analysis = errorAnalysis
    ∧ scoreOf (mkFailure "OpenAI API key not configured").analysis
        = some (Rat.divInt 0 1) :=
  (serve_500_on_fatal_and_decode_failures envNoKey).2.2.2.2.2
    (mkFailure "OpenAI API key not configured") rfl
